import Mathlib

/-!
Verification of the post-composition and embed-selection engine of the
`indiekit-syndicator-bluesky` plugin (`src/lib/utils.js`, `src/lib/bluesky.js`).

Text is modelled as `List Char` (JavaScript strings; all characters the
claims exercise are single UTF-16 code units, so lengths agree between the
two models). External collaborators (the `sharp` encoder, the network
fetch, the HTML-to-text renderer, the `@indiekit/util` origin check and
the blob-upload transport) are abstracted as explicit function parameters;
every in-repository computation is embedded directly.
-/

/-- JavaScript strings, modelled as lists of characters. -/
abbrev Str := List Char

/-- JavaScript truthiness of an optional string: returns the value when it
is present and non-empty, `none` otherwise (both `undefined` and `""` are
falsy in the source). -/
def otruthy (o : Option Str) : Option Str :=
  match o with
  | some s => if s = [] then none else some s
  | none => none

/-- JS `a || b` on a possibly-absent string `a` (JS: `null`/`undefined`/`""`
fall through to `b`). -/
def jsOrS (a : Option Str) (b : Str) : Str :=
  match a with
  | some s => if s = [] then b else s
  | none => b

/-- Drop a literal from the front of a list; `none` when the literal is not
a prefix. Used to model matching a literal piece of a regular expression. -/
def dropLit : Str → Str → Option Str
  | [], s => some s
  | _ :: _, [] => none
  | c :: cs, x :: xs => if c = x then dropLit cs xs else none

/-! ## `uriToPostUrl` (src/lib/utils.js lines 19, 173-180)

The source matches the unanchored regular expression
`at://(?<did>did:[^/]+)/(?<type>[^/]+)/(?<rkey>[^/]+)` against the URI and,
on success, rewrites to `{profileUrl}/{did}/{lastDotSegment type}/{rkey}`.
The regex search is embedded as a leftmost-match scan; each `[^/]+` group
followed by `/` (or by nothing) is exactly a maximal run of non-`/`
characters of length at least one, since `[^/]+` can never consume the
terminator, so greedy matching needs no backtracking.
-/

/-- Split a string into its maximal run of non-`/` characters and the rest
(the `[^/]+` group of the `AT_URI` regex, which can never consume the `/`
terminator, so greedy matching needs no backtracking). -/
def splitSeg : Str → Str × Str
  | [] => ([], [])
  | c :: cs =>
    if c = '/' then ([], c :: cs)
    else
      let p := splitSeg cs
      (c :: p.1, p.2)

/-- Attempt to match the `AT_URI` pattern starting at the head of `s`,
returning the three capture groups `(did, type, rkey)`. -/
def matchAtUriAt (s : Str) : Option (Str × Str × Str) :=
  match dropLit "at://".toList s with
  | none => none
  | some s1 =>
    match dropLit "did:".toList s1 with
    | none => none
    | some s2 =>
      let d := splitSeg s2
      if d.1 = [] then none
      else
        match d.2 with
        | '/' :: s4 =>
          let ty := splitSeg s4
          if ty.1 = [] then none
          else
            match ty.2 with
            | '/' :: s6 =>
              let rk := splitSeg s6
              if rk.1 = [] then none
              else some ("did:".toList ++ d.1, ty.1, rk.1)
            | _ => none
        | _ => none

/-- Leftmost match of the `AT_URI` pattern anywhere in the string
(JavaScript `String.prototype.match` with an unanchored regex). -/
def findAtUri : Str → Option (Str × Str × Str)
  | [] => none
  | c :: rest =>
    match matchAtUriAt (c :: rest) with
    | some g => some g
    | none => findAtUri rest

/-- Model of `type.split(".").at(-1)`: the last dot-separated segment. `splitOnChar`
retains empty segments, as JavaScript `split` does. -/
def splitOnChar (sep : Char) : Str → List Str
  | [] => [[]]
  | x :: xs =>
    if x = sep then [] :: splitOnChar sep xs
    else
      match splitOnChar sep xs with
      | [] => [[x]]
      | w :: ws => (x :: w) :: ws

/-- Last dot-separated segment of a record type. -/
def lastDotSeg (ty : Str) : Str :=
  (splitOnChar '.' ty).getLastD []

/-- Embedding of `uriToPostUrl` from src/lib/utils.js lines 173-180: `none` models the
JavaScript `undefined` fall-through when the regex does not match. -/
def uriToPostUrl (profileUrl uri : Str) : Option Str :=
  match findAtUri uri with
  | some (did, ty, rkey) =>
    some (profileUrl ++ '/' :: did ++ '/' :: lastDotSeg ty ++ '/' :: rkey)
  | none => none

/-! ## JF2 post properties and text composition (src/lib/utils.js lines 188-248)
-/

/-- One entry of the `photo` property: `{url, alt}`. -/
structure Photo where
  url : Str
  alt : Option Str

/-- The `content` property: `{html?, text?}`. -/
structure Content where
  html : Option Str
  text : Option Str

/-- Normalized JF2 post properties consumed by the engine. The dashed JSON
keys `like-of`, `repost-of`, `bookmark-of`, `in-reply-to` become `likeOf`,
`repostOf`, `bookmarkOf`, `inReplyTo`. -/
structure PostProperties where
  name : Option Str
  content : Option Content
  url : Str
  photo : Option (List Photo)
  likeOf : Option Str
  repostOf : Option Str
  bookmarkOf : Option Str
  inReplyTo : Option Str

/-- Accessor for `properties.content?.html`. -/
def contentHtml (p : PostProperties) : Option Str :=
  p.content.bind (fun c => c.html)

/-- Accessor for `properties.content?.text`. -/
def contentText (p : PostProperties) : Option Str :=
  p.content.bind (fun c => c.text)

/-- JavaScript `String.prototype.trim`: strip whitespace from both ends. -/
def jsTrim (l : Str) : Str :=
  ((l.dropWhile Char.isWhitespace).reverse.dropWhile Char.isWhitespace).reverse

/-- JavaScript `s.slice(0, stop)` with JS index semantics: a negative stop
counts from the end, and the result is clamped to the string. -/
def jsSliceEnd (l : Str) (stop : Int) : Str :=
  let len : Int := l.length
  let e := if stop < 0 then max 0 (len + stop) else min stop len
  l.take e.toNat

/-- JavaScript `s.replace(pat, rep)` with a string pattern: replace the
first occurrence only (the string is returned unchanged when the pattern
does not occur). -/
def jsReplaceFirst (pat rep : Str) : Str → Str
  | [] => if pat.isPrefixOf ([] : Str) then rep else []
  | c :: cs =>
    if pat.isPrefixOf (c :: cs) then rep ++ (c :: cs).drop pat.length
    else c :: jsReplaceFirst pat rep cs

/-- JavaScript `hay.includes(needle)`: substring test. -/
def strIncludes (needle : Str) : Str → Bool
  | [] => needle.isEmpty
  | c :: cs => needle.isPrefixOf (c :: cs) || strIncludes needle cs

/-- The pre-truncation text of `getPostText` (src/lib/utils.js lines
189-197): title plus permalink when `name` is set, else the HTML rendering
(`htmlToStatusText`, whose external `html-to-text` core is abstracted as
`h2t`), else the plain text content, else empty. -/
def extractPostText (h2t : Str → Str) (p : PostProperties) : Str :=
  match otruthy p.name with
  | some nm => nm ++ ' ' :: p.url
  | none =>
    match otruthy (contentHtml p) with
    | some html => h2t html
    | none =>
      match otruthy (contentText p) with
      | some t => t
      | none => []

/-- Embedding of `getPostText` from src/lib/utils.js lines 188-210. -/
def getPostText (h2t : Str → Str) (p : PostProperties) (includePermalink : Bool) : Str :=
  let text := extractPostText h2t p
  if 300 < text.length then
    let suffix := '\n' :: '\n' :: p.url
    jsTrim (jsSliceEnd text (300 - (suffix.length : Int) - 3)) ++ "...".toList ++ suffix
  else if includePermalink && !(strIncludes p.url text) then
    text ++ '\n' :: '\n' :: p.url
  else text

/-- The `"❤️ "` marker of `getLikePostText` (two code points for the emoji
plus a space, three UTF-16 code units in the source). -/
def heartMarker : Str := "❤️ ".toList

/-- Content extraction step of `getLikePostText` (src/lib/utils.js lines
219-226). -/
def likeContentText (h2t : Str → Str) (p : PostProperties) : Str :=
  match otruthy (contentHtml p) with
  | some html => h2t html
  | none =>
    match otruthy (contentText p) with
    | some t => t
    | none => []

/-- Marker-append step of `getLikePostText` (src/lib/utils.js lines
228-237): append `"\n\n❤️ {likedUrl}"` to non-empty content not already
containing the URL; with no content the text is just the marker line. -/
def likeMarkedText (h2t : Str → Str) (p : PostProperties) (likedUrl : Str) : Str :=
  let text := likeContentText h2t p
  if text ≠ [] then
    if !(strIncludes likedUrl text) then text ++ '\n' :: '\n' :: (heartMarker ++ likedUrl)
    else text
  else heartMarker ++ likedUrl

/-- Embedding of `getLikePostText` from src/lib/utils.js lines 218-248. -/
def getLikePostText (h2t : Str → Str) (p : PostProperties) (likedUrl : Str) : Str :=
  let text := likeMarkedText h2t p likedUrl
  if 300 < text.length then
    let suffix := '\n' :: '\n' :: (heartMarker ++ likedUrl)
    jsTrim (jsSliceEnd (jsReplaceFirst suffix [] text) (300 - (suffix.length : Int) - 3))
      ++ "...".toList ++ suffix
  else text

/-- Concrete properties whose extracted text is 302 characters long with a
space exactly at the truncation cut point. -/
def trimEdgeProps : PostProperties :=
  ⟨none, some ⟨none, some (List.replicate 281 'a' ++ ' ' :: List.replicate 20 'b')⟩,
    "https://e.x/p".toList, none, none, none, none, none⟩

/-- Concrete properties with 301 characters of plain text content. -/
def longTextProps : PostProperties :=
  ⟨none, some ⟨none, some (List.replicate 301 'a')⟩,
    "u".toList, none, none, none, none, none⟩

/-! ## `getExternalUrl` (src/lib/utils.js lines 384-449)

The marker cascade is embedded directly from the source; the content-URL
harvesting tail (lines 400-448: regex scans over HTML/plain text, ordered
deduplication and the own-domain filter) is reached only when no marker is
present and is abstracted as the `harvest` parameter, since every claim
about this function exercises only the marker branch.
-/

/-- Embedding of `getExternalUrl` from src/lib/utils.js lines 384-398: the source tests
`like-of` first, then `bookmark-of`, then `in-reply-to` (JS truthiness on
each), falling through to content harvesting. -/
def getExternalUrl (harvest : PostProperties → Option Str → Option Str)
    (p : PostProperties) (ownDomain : Option Str) : Option Str :=
  match otruthy p.likeOf with
  | some u => some u
  | none =>
    match otruthy p.bookmarkOf with
    | some u => some u
    | none =>
      match otruthy p.inReplyTo with
      | some u => some u
      | none => harvest p ownDomain

/-- Properties carrying both a `like-of` and a `bookmark-of` marker. -/
def likeAndBookmarkProps : PostProperties :=
  ⟨none, none, [], none, some "https://liked.example/1".toList, none,
    some "https://bookmarked.example/2".toList, none⟩

/-! ## `fetchOpenGraphData` (src/lib/utils.js lines 306-359)

The network fetch and the JSDOM parse are external; their observable
results are modelled as a `FetchOutcome` input. `resolvedImage` stands for
`new URL(ogImage, new URL(url).origin).href`, the relative-image
resolution: `none` models either `URL` constructor throwing, which the
source's `catch` turns into the fallback value.
-/

/-- Observable content of a successful HTTP response after parsing. -/
structure OgResponse where
  ok : Bool
  ogTitle : Option Str
  pageTitle : Option Str
  ogDescription : Option Str
  metaDescription : Option Str
  ogImage : Option Str
  resolvedImage : Option Str

/-- Outcome of the network fetch: an error (network failure, timeout, body
read or parse throw) or a response. -/
inductive FetchOutcome where
  | fetchError
  | response (r : OgResponse)

/-- Metadata returned by `fetchOpenGraphData`. -/
structure OgData where
  title : Str
  description : Str
  imageUrl : Option Str
deriving DecidableEq

/-- The documented fallback `{title: url, description: "", imageUrl: null}`. -/
def ogFallback (url : Str) : OgData := ⟨url, [], none⟩

/-- Embedding of `fetchOpenGraphData` from src/lib/utils.js lines 306-359. JS `||`
chains on possibly-empty attribute strings become `jsOrS`; `.slice(0, n)`
on the success path becomes `List.take`. The source's
`if (ogImage && !ogImage.startsWith("http"))` appears with its branches
swapped: resolution happens exactly when the image URL does not start with
`http`. -/
def fetchOpenGraphData (url : Str) (outcome : FetchOutcome) : OgData :=
  match outcome with
  | .fetchError => ogFallback url
  | .response r =>
    if r.ok = false then ogFallback url
    else
      let ogTitle := jsOrS r.ogTitle (jsOrS r.pageTitle url)
      let ogDescription := jsOrS r.ogDescription (jsOrS r.metaDescription [])
      match otruthy r.ogImage with
      | some img =>
        if "http".toList.isPrefixOf img then
          ⟨ogTitle.take 300, ogDescription.take 1000, some img⟩
        else
          match r.resolvedImage with
          | none => ogFallback url
          | some res => ⟨ogTitle.take 300, ogDescription.take 1000, some res⟩
      | none => ⟨ogTitle.take 300, ogDescription.take 1000, none⟩

/-! ## `constrainImage` and `getPostImage` (src/lib/utils.js lines 257-278)

`encode` models `sharp(buffer).jpeg({quality}).toBuffer()` for the fixed
source buffer, returning the encoded byte list for a given quality.
`sharp` rejects a jpeg quality below 1 by throwing, modelled as `.error`;
in the source the recursion `quality - 5` reaches that invalid region when
no quality gets under budget (there is no explicit floor), so the model
collapses the one extra call into the same error outcome.
-/

/-- Error value standing for the `sharp` invalid-quality throw. -/
def qualityErr : Str := "invalid jpeg quality".toList

/-- Embedding of `constrainImage` from src/lib/utils.js lines 257-263: re-encode at
`quality`; while the result exceeds `maxBytes`, recurse at `quality - 5`. -/
def constrainImage (encode : Nat → List Nat) (maxBytes : Nat) : Nat → Except Str (List Nat)
  | 0 => .error qualityErr
  | q + 5 =>
    if maxBytes < (encode (q + 5)).length then constrainImage encode maxBytes q
    else .ok (encode (q + 5))
  | q + 1 =>
    if maxBytes < (encode (q + 1)).length then .error qualityErr
    else .ok (encode (q + 1))

/-- Embedding of `getPostImage` from src/lib/utils.js lines 271-278: buffers under 1 MiB
pass through untouched; larger ones are compressed and retagged as JPEG. -/
def getPostImage (encode : Nat → List Nat) (buffer : List Nat) (mimeType : Str) :
    Except Str (List Nat × Str) :=
  if buffer.length < 1048576 then .ok (buffer, mimeType)
  else
    match constrainImage encode 1048576 90 with
    | .ok compressed => .ok (compressed, "image/jpeg".toList)
    | .error e => .error e

/-! ## `wrapText` (src/lib/utils.js lines 42-81)

`generateDefaultOgImage` word-wraps the thumbnail title with
`wrapText(title, 35, 4)`. The JS `text.split(/\s+/)` is embedded as
`jsSplitWs` (runs of whitespace separate segments; a leading or trailing
run contributes an empty segment, and `"".split` yields `[""]`).
-/

/-- Chunks of consecutive non-whitespace characters; `cur` carries the
current chunk reversed. -/
def wordChunksGo : Str → Str → List Str
  | [], cur => if cur.isEmpty then [] else [cur.reverse]
  | c :: rest, cur =>
    if c.isWhitespace then
      if cur.isEmpty then wordChunksGo rest []
      else cur.reverse :: wordChunksGo rest []
    else wordChunksGo rest (c :: cur)

/-- JavaScript `text.split(/\s+/)`. -/
def jsSplitWs (s : Str) : List Str :=
  match s with
  | [] => [[]]
  | c :: _ =>
    (if c.isWhitespace then [([] : Str)] else [])
      ++ wordChunksGo s []
      ++ (if (s.getLast?.map Char.isWhitespace).getD false then [([] : Str)] else [])

/-- JavaScript `lines.join(" ")`. -/
def joinSpace : List Str → Str
  | [] => []
  | [l] => l
  | l :: ls => l ++ ' ' :: joinSpace ls

/-- JavaScript `s.endsWith(suf)`. -/
def strEndsWith (suf s : Str) : Bool :=
  suf.reverse.isPrefixOf s.reverse

/-- The word loop of `wrapText` (src/lib/utils.js lines 47-64), returning
the accumulated lines and the current line. -/
def wrapLoop (maxChars maxLines : Nat) : List Str → List Str → Str → (List Str × Str)
  | [], lines, cur => (lines, cur)
  | w :: ws, lines, cur =>
    if maxLines ≤ lines.length then (lines, cur)
    else
      let test := if cur.isEmpty then w else cur ++ ' ' :: w
      if test.length ≤ maxChars then wrapLoop maxChars maxLines ws lines test
      else if !cur.isEmpty then wrapLoop maxChars maxLines ws (lines ++ [cur]) w
      else wrapLoop maxChars maxLines ws (lines ++ [w.take (maxChars - 3) ++ "...".toList]) []

/-- The trailing-ellipsis fix-up of `wrapText` (src/lib/utils.js lines
70-78), rewriting only the last line. -/
def wrapFixup (maxChars maxLines : Nat) (words lines : List Str) : List Str :=
  if lines.length = maxLines
      && (jsSplitWs (joinSpace lines)).length < words.length then
    let lastLine := lines.getLastD []
    if maxChars - 3 < lastLine.length then
      lines.dropLast ++ [lastLine.take (maxChars - 3) ++ "...".toList]
    else if !(strEndsWith "...".toList lastLine) then
      lines.dropLast ++ [lastLine ++ "...".toList]
    else lines
  else lines

/-- Embedding of `wrapText` from src/lib/utils.js lines 42-81 (loop and fix-up factored
into `wrapLoop` and `wrapFixup`). -/
def wrapText (text : Str) (maxChars maxLines : Nat) : List Str :=
  let words := jsSplitWs text
  let r := wrapLoop maxChars maxLines words [] []
  let lines := if !r.2.isEmpty && r.1.length < maxLines then r.1 ++ [r.2] else r.1
  wrapFixup maxChars maxLines words lines

/-! ## The `Bluesky.post` dispatcher (src/lib/bluesky.js lines 243-268, 320-416)

The dispatcher is modelled as a function from the post properties to the
transport action it performs. External collaborators appear as `Oracles`:
`sameOrigin` is `isSameOrigin` from `@indiekit/util`; `upload` is the
media fetch + `getPostImage` + `uploadBlob` pipeline for one photo;
`createExternalEmbed` is the OG-card builder (network-driven, may yield
null); `h2t` is the `html-to-text` core used by the embedded text
composers; `repostText`, `bookmarkText` and `buildText` stand for
`getRepostPostText`, `getBookmarkPostText` and `buildPostText`, which are
imported by bluesky.js but live outside the sources under verification;
`harvest` is the content-URL harvesting tail of `getExternalUrl`. `Img`
is the uploaded-image record `{alt, image}`, `Card` the external-embed
payload. A `none` result models the bare `return;` (undefined) of the
disabled-syndication branches; rich-text facet detection and timestamps
are not modelled.
-/

/-- The embed attached to an outbound post: an image gallery
(`app.bsky.embed.images`) or an external link card
(`app.bsky.embed.external`). -/
inductive Embed (Img Card : Type) where
  | images (imgs : List Img)
  | external (card : Card)

/-- The payload handed to `client.post` by `postPost`. -/
structure PostData (Img Card : Type) where
  text : Str
  embed : Option (Embed Img Card)

/-- Embed selection of `Bluesky.postPost` (src/lib/bluesky.js lines
243-268): images take priority over the external embed; with neither, no
embed is attached. -/
def postPost {Img Card : Type} (text : Str) (images : List Img)
    (externalEmbed : Option Card) : PostData Img Card :=
  { text := text
    embed :=
      if 0 < images.length then some (.images images)
      else
        match externalEmbed with
        | some c => some (.external c)
        | none => none }

/-- The transport action performed by one `Bluesky.post` call. -/
inductive PostAction (Img Card : Type) where
  | quotePost (target : Str) (text : Str) (images : List Img)
  | repost (target : Str)
  | like (target : Str)
  | post (d : PostData Img Card)

/-- External collaborators of the dispatcher. -/
structure Oracles (Img Card : Type) where
  sameOrigin : Str → Str → Bool
  upload : Photo → Img
  createExternalEmbed : Str → Option Card
  h2t : Str → Str
  repostText : PostProperties → Str → Str
  bookmarkText : PostProperties → Str → Str
  buildText : PostProperties → Option Str → Str
  harvest : PostProperties → Option Str → Option Str

/-- Per-call configuration read from the syndicator options. -/
structure BskyConfig where
  profileUrl : Str
  includePermalink : Bool
  syndicateExternalLikes : Bool
  syndicateExternalReposts : Bool

/-- Embedding of `Bluesky.post` from src/lib/bluesky.js lines 320-416: photo uploads
(capped at 4), then the marker cascade — repost, like, bookmark — then the
regular-post branch, which resolves the external URL, builds an external
embed only when no images are present (falling back to the post's own
permalink), and posts via `postPost`. -/
def blueskyPost {Img Card : Type} (o : Oracles Img Card) (cfg : BskyConfig)
    (p : PostProperties) : Option (PostAction Img Card) :=
  let images :=
    match p.photo with
    | some photos => (photos.take 4).map o.upload
    | none => []
  match otruthy p.repostOf with
  | some repostUrl =>
    if o.sameOrigin repostUrl cfg.profileUrl && p.content.isSome then
      some (.quotePost repostUrl (getPostText o.h2t p cfg.includePermalink) images)
    else if o.sameOrigin repostUrl cfg.profileUrl then
      some (.repost repostUrl)
    else if cfg.syndicateExternalReposts then
      some (.post (postPost (o.repostText p repostUrl) images
        (o.createExternalEmbed repostUrl)))
    else none
  | none =>
    match otruthy p.likeOf with
    | some likeOfUrl =>
      if o.sameOrigin likeOfUrl cfg.profileUrl then
        some (.like likeOfUrl)
      else if cfg.syndicateExternalLikes then
        some (.post (postPost (getLikePostText o.h2t p likeOfUrl) images
          (o.createExternalEmbed likeOfUrl)))
      else none
    | none =>
      match otruthy p.bookmarkOf with
      | some bookmarkOfUrl =>
        some (.post (postPost (o.bookmarkText p bookmarkOfUrl) images
          (o.createExternalEmbed bookmarkOfUrl)))
      | none =>
        let externalUrl := getExternalUrl o.harvest p none
        let text := o.buildText p externalUrl
        let externalEmbed :=
          if images.length = 0 then
            let embedUrl := jsOrS externalUrl p.url
            if embedUrl.isEmpty then none else o.createExternalEmbed embedUrl
          else none
        some (.post (postPost text images externalEmbed))

/-- Trivial oracle instantiation used by the dispatcher witnesses: every
URL is foreign to the profile, uploads and cards are unit values. -/
def unitOracles : Oracles Unit Unit :=
  ⟨fun _ _ => false, fun _ => (), fun _ => none, id,
    fun _ _ => [], fun _ _ => [], fun _ _ => [], fun _ _ => none⟩

/-- Configuration with external-like syndication disabled. -/
def likeDisabledConfig : BskyConfig :=
  ⟨"https://bsky.app/profile".toList, false, false, true⟩

/-- Configuration with the source's defaults (both syndication flags on). -/
def defaultConfig : BskyConfig :=
  ⟨"https://bsky.app/profile".toList, false, true, true⟩

/-- The specification's scenario: a like of an external URL. -/
def externalLikeProps : PostProperties :=
  ⟨none, none, "https://me.example/p1".toList, none,
    some "https://other.example/post".toList, none, none, none⟩

/-- A regular post (no marker fields) carrying one photo. -/
def photoProps : PostProperties :=
  ⟨none, none, "https://me.example/p1".toList,
    some [⟨"https://me.example/img.jpg".toList, none⟩], none, none, none, none⟩

/-! ## Theorems -/

theorem dropLit_append (p s : Str) : dropLit p (p ++ s) = some s := by
  induction p with
  | nil => rfl
  | cons c cs ih => simp [dropLit, ih]

theorem splitSeg_append (l rest : Str) (h : ∀ c ∈ l, c ≠ '/') :
    splitSeg (l ++ '/' :: rest) = (l, '/' :: rest) := by
  induction l with
  | nil => simp [splitSeg]
  | cons c cs ih =>
    have hc : c ≠ '/' := h c (by simp)
    have ih' := ih (fun x hx => h x (by simp [hx]))
    simp [splitSeg, hc, ih']

theorem splitSeg_all (l : Str) (h : ∀ c ∈ l, c ≠ '/') :
    splitSeg l = (l, []) := by
  induction l with
  | nil => simp [splitSeg]
  | cons c cs ih =>
    have hc : c ≠ '/' := h c (by simp)
    have ih' := ih (fun x hx => h x (by simp [hx]))
    simp [splitSeg, hc, ih']

theorem findAtUri_of_match (s : Str) (g : Str × Str × Str) (h : matchAtUriAt s = some g) :
    findAtUri s = some g := by
  cases s with
  | nil =>
    have hz : matchAtUriAt ([] : Str) = none := rfl
    rw [hz] at h
    exact Option.noConfusion h
  | cons c rest => simp [findAtUri, h]

/-- C6: for every profile base and every structured backend URI
`at://<did>/<record-type>/<record-key>` (the DID carrying its `did:`
scheme, each component non-empty and slash-free), `uriToPostUrl` returns
`<profileBase>/<did>/<lastDotSegmentOfType>/<record-key>`. -/
theorem uriToPostUrl_structured (base d t r : Str)
    (hd : d ≠ []) (hd2 : ∀ c ∈ d, c ≠ '/')
    (ht : t ≠ []) (ht2 : ∀ c ∈ t, c ≠ '/')
    (hr : r ≠ []) (hr2 : ∀ c ∈ r, c ≠ '/') :
    uriToPostUrl base ("at://".toList ++ ("did:".toList ++ (d ++ '/' :: (t ++ '/' :: r))))
      = some (base ++ '/' :: ("did:".toList ++ d) ++ '/' :: lastDotSeg t ++ '/' :: r) := by
  have hmatch : matchAtUriAt ("at://".toList ++ ("did:".toList ++ (d ++ '/' :: (t ++ '/' :: r))))
      = some ("did:".toList ++ d, t, r) := by
    simp only [matchAtUriAt, dropLit_append,
      splitSeg_append d (t ++ '/' :: r) hd2,
      splitSeg_append t r ht2,
      splitSeg_all r hr2]
    simp [hd, ht, hr]
  simp only [uriToPostUrl, findAtUri_of_match _ _ hmatch]

/-- C6 witness: the round-trip instance named by the claim,
`uriToPostUrl(profileBase, "at://did:plc:abc/app.bsky.feed.post/xyz") =
"{profileBase}/did:plc:abc/post/xyz"`, obtained by instantiating
`uriToPostUrl_structured` at that input. -/
theorem uriToPostUrl_structured_witness :
    uriToPostUrl "https://bsky.app/profile".toList "at://did:plc:abc/app.bsky.feed.post/xyz".toList
      = some "https://bsky.app/profile/did:plc:abc/post/xyz".toList := by
  have h := uriToPostUrl_structured "https://bsky.app/profile".toList
    "plc:abc".toList "app.bsky.feed.post".toList "xyz".toList
    (by decide) (by decide) (by decide) (by decide) (by decide) (by decide)
  have e1 : ("at://".toList ++ ("did:".toList ++ ("plc:abc".toList
        ++ '/' :: ("app.bsky.feed.post".toList ++ '/' :: "xyz".toList))))
      = "at://did:plc:abc/app.bsky.feed.post/xyz".toList := by decide
  have e2 : ("https://bsky.app/profile".toList
        ++ '/' :: ("did:".toList ++ "plc:abc".toList)
        ++ '/' :: lastDotSeg "app.bsky.feed.post".toList ++ '/' :: "xyz".toList)
      = "https://bsky.app/profile/did:plc:abc/post/xyz".toList := by decide
  rw [e1, e2] at h
  exact h

theorem length_dropWhile_le (p : Char → Bool) (l : Str) : (l.dropWhile p).length ≤ l.length := by
  induction l with
  | nil => simp
  | cons c cs ih =>
    by_cases h : p c
    · simp only [List.dropWhile_cons, h, if_pos]
      simp only [List.length_cons]
      omega
    · simp [List.dropWhile_cons, h]

theorem length_jsTrim_le (l : Str) : (jsTrim l).length ≤ l.length := by
  have h1 := length_dropWhile_le Char.isWhitespace l
  have h2 := length_dropWhile_le Char.isWhitespace ((l.dropWhile Char.isWhitespace).reverse)
  simp only [jsTrim, List.length_reverse] at *
  omega

theorem length_jsSliceEnd_le (l : Str) (stop : Int) (h : 0 ≤ stop) :
    (jsSliceEnd l stop).length ≤ stop.toNat := by
  have hnl : ¬ stop < (0 : Int) := not_lt.mpr h
  simp only [jsSliceEnd, if_neg hnl, List.length_take]
  have hm : (min stop (l.length : Int)).toNat ≤ stop.toNat :=
    Int.toNat_le_toNat (min_le_left _ _)
  omega

theorem c1_post_half (h2t : Str → Str) (p : PostProperties) (ipl : Bool)
    (hlen : 300 < (extractPostText h2t p).length) (hurl : p.url.length ≤ 295) :
    ∃ core : Str, getPostText h2t p ipl = core ++ "...".toList ++ '\n' :: '\n' :: p.url
      ∧ (getPostText h2t p ipl).length ≤ 300 := by
  set core := jsTrim (jsSliceEnd (extractPostText h2t p)
      (300 - ((('\n' :: '\n' :: p.url : Str)).length : Int) - 3)) with hc
  have heq : getPostText h2t p ipl = core ++ "...".toList ++ '\n' :: '\n' :: p.url := by
    simp only [getPostText, if_pos hlen, hc]
  refine ⟨core, heq, ?_⟩
  rw [heq]
  have hcore : core.length ≤ (300 - ((('\n' :: '\n' :: p.url : Str)).length : Int) - 3).toNat := by
    rw [hc]
    exact le_trans (length_jsTrim_le _)
      (length_jsSliceEnd_le _ _ (by simp only [List.length_cons]; omega))
  have hstop : (300 - ((('\n' :: '\n' :: p.url : Str)).length : Int) - 3).toNat
      + p.url.length + 5 ≤ 300 := by
    simp only [List.length_cons]
    omega
  have h3 : ("...".toList : Str).length = 3 := rfl
  simp only [List.length_append, List.length_cons]
  omega

theorem c1_like_half (h2t : Str → Str) (p : PostProperties) (likedUrl : Str)
    (hlen : 300 < (likeMarkedText h2t p likedUrl).length) (hurl : likedUrl.length ≤ 292) :
    ∃ core : Str, getLikePostText h2t p likedUrl
        = core ++ "...".toList ++ '\n' :: '\n' :: (heartMarker ++ likedUrl)
      ∧ (getLikePostText h2t p likedUrl).length ≤ 300 := by
  set core := jsTrim (jsSliceEnd
      (jsReplaceFirst ('\n' :: '\n' :: (heartMarker ++ likedUrl)) [] (likeMarkedText h2t p likedUrl))
      (300 - ((('\n' :: '\n' :: (heartMarker ++ likedUrl) : Str)).length : Int) - 3)) with hc
  have hml : (('\n' :: '\n' :: (heartMarker ++ likedUrl) : Str)).length = likedUrl.length + 5 := by
    simp [heartMarker]
  have heq : getLikePostText h2t p likedUrl
      = core ++ "...".toList ++ '\n' :: '\n' :: (heartMarker ++ likedUrl) := by
    simp only [getLikePostText, if_pos hlen, hc]
  refine ⟨core, heq, ?_⟩
  rw [heq]
  have hcore : core.length
      ≤ (300 - ((('\n' :: '\n' :: (heartMarker ++ likedUrl) : Str)).length : Int) - 3).toNat := by
    rw [hc]
    exact le_trans (length_jsTrim_le _)
      (length_jsSliceEnd_le _ _ (by rw [hml]; push_cast; omega))
  have h3 : ("...".toList : Str).length = 3 := rfl
  have hh : heartMarker.length = 3 := rfl
  have hlen2 : (core ++ "...".toList ++ '\n' :: '\n' :: (heartMarker ++ likedUrl)).length
      = core.length + likedUrl.length + 8 := by
    simp only [List.length_append, List.length_cons, h3, hh]
    omega
  rw [hml] at hcore
  rw [hlen2]
  omega

/-- C1 (amended): when the extracted text exceeds 300 characters and the
trailing reference fits the budget (post permalink at most 295 characters,
liked URL at most 292), the composed text — `getPostText` for new posts,
`getLikePostText` for likes — has length at most 300 (exactly 300 except
when `trim` removes whitespace at the cut point) and ends with the
preserved trailing reference (`"\n\n{url}"`, resp. `"\n\n❤️ {likedUrl}"`)
with a 3-character ellipsis at the cut point. -/
theorem composedText_truncation_bounded (h2t : Str → Str) (p : PostProperties)
    (ipl : Bool) (likedUrl : Str)
    (hpost : 300 < (extractPostText h2t p).length) (hpurl : p.url.length ≤ 295)
    (hlike : 300 < (likeMarkedText h2t p likedUrl).length) (hlurl : likedUrl.length ≤ 292) :
    (∃ core : Str, getPostText h2t p ipl = core ++ "...".toList ++ '\n' :: '\n' :: p.url
       ∧ (getPostText h2t p ipl).length ≤ 300)
    ∧ (∃ core : Str, getLikePostText h2t p likedUrl
         = core ++ "...".toList ++ '\n' :: '\n' :: (heartMarker ++ likedUrl)
       ∧ (getLikePostText h2t p likedUrl).length ≤ 300) :=
  ⟨c1_post_half h2t p ipl hpost hpurl, c1_like_half h2t p likedUrl hlike hlurl⟩

set_option maxRecDepth 8000 in
/-- C1 witness: `composedText_truncation_bounded` instantiated at 301
characters of content with one-character URLs. -/
theorem composedText_truncation_bounded_witness :
    (∃ core : Str, getPostText id longTextProps false
         = core ++ "...".toList ++ '\n' :: '\n' :: longTextProps.url
       ∧ (getPostText id longTextProps false).length ≤ 300)
    ∧ (∃ core : Str, getLikePostText id longTextProps "v".toList
         = core ++ "...".toList ++ '\n' :: '\n' :: (heartMarker ++ "v".toList)
       ∧ (getLikePostText id longTextProps "v".toList).length ≤ 300) :=
  composedText_truncation_bounded id longTextProps false "v".toList
    (by decide) (by decide) (by decide) (by decide)

set_option maxRecDepth 8000 in
/-- C1 counterexample: at `trimEdgeProps` the extracted text has 302
characters, yet the composed text has length 299, not exactly 300 — the
`trim` after the slice removed the space at the cut point. -/
theorem getPostText_length_not_exactly_300 :
    300 < (extractPostText id trimEdgeProps).length
      ∧ (getPostText id trimEdgeProps false).length = 299 := by
  exact ⟨by decide, by decide⟩

/-- C2 (amended): `getExternalUrl` selects the marker URL by the priority
order `like-of`, then `bookmark-of`, then `in-reply-to` — in particular,
when both `bookmark-of` and `like-of` are present it returns the `like-of`
URL, not the `bookmark-of` URL. -/
theorem getExternalUrl_marker_priority
    (harvest : PostProperties → Option Str → Option Str)
    (p : PostProperties) (own : Option Str) :
    (∀ u, otruthy p.likeOf = some u → getExternalUrl harvest p own = some u)
    ∧ (otruthy p.likeOf = none →
        ∀ u, otruthy p.bookmarkOf = some u → getExternalUrl harvest p own = some u)
    ∧ (otruthy p.likeOf = none → otruthy p.bookmarkOf = none →
        ∀ u, otruthy p.inReplyTo = some u → getExternalUrl harvest p own = some u) := by
  refine ⟨?_, ?_, ?_⟩ <;> intros <;> simp [getExternalUrl, *]

/-- C2 witness: `getExternalUrl_marker_priority` instantiated at
`likeAndBookmarkProps` — the `like-of` branch fires. -/
theorem getExternalUrl_marker_priority_witness :
    getExternalUrl (fun _ _ => none) likeAndBookmarkProps none
      = some "https://liked.example/1".toList :=
  (getExternalUrl_marker_priority (fun _ _ => none) likeAndBookmarkProps none).1
    "https://liked.example/1".toList (by decide)

/-- C2 counterexample: with both markers present, the result is the
`like-of` URL and differs from the `bookmark-of` URL the claim names. -/
theorem getExternalUrl_not_bookmark_first :
    getExternalUrl (fun _ _ => none) likeAndBookmarkProps none
        ≠ some likeAndBookmarkProps.bookmarkOf.iget
      ∧ getExternalUrl (fun _ _ => none) likeAndBookmarkProps none
        = some likeAndBookmarkProps.likeOf.iget := by
  exact ⟨by decide, by decide⟩

/-- C4: `fetchOpenGraphData` is a total function of its inputs (it cannot
throw), and on every failure — network error, non-success response, or a
throwing relative-image resolution — it returns exactly
`{title: url, description: "", imageUrl: null}`. -/
theorem fetchOpenGraphData_failure_fallback (url : Str) :
    (fetchOpenGraphData url .fetchError = ogFallback url)
    ∧ (∀ r : OgResponse, r.ok = false →
        fetchOpenGraphData url (.response r) = ogFallback url)
    ∧ (∀ r : OgResponse, ∀ img : Str, r.ok = true → otruthy r.ogImage = some img →
        "http".toList.isPrefixOf img = false → r.resolvedImage = none →
        fetchOpenGraphData url (.response r) = ogFallback url) := by
  refine ⟨rfl, ?_, ?_⟩
  · intro r h
    simp only [fetchOpenGraphData, h, if_pos]
  · intro r img hok himg hpre hres
    simp only [fetchOpenGraphData, hok, himg, hpre, hres]
    simp

/-- C4 witness: `fetchOpenGraphData_failure_fallback` applied to a
non-success response. -/
theorem fetchOpenGraphData_failure_fallback_witness :
    fetchOpenGraphData "https://unreachable.example/x".toList
        (.response ⟨false, none, none, none, none, none, none⟩)
      = ogFallback "https://unreachable.example/x".toList :=
  (fetchOpenGraphData_failure_fallback "https://unreachable.example/x".toList).2.1
    ⟨false, none, none, none, none, none, none⟩ rfl

theorem ogData_caps_take (T D : Str) (i : Option Str) (url : Str) :
    ((⟨T.take 300, D.take 1000, i⟩ : OgData)).description.length ≤ 1000
    ∧ ((⟨T.take 300, D.take 1000, i⟩ : OgData)).title.length ≤ max 300 url.length := by
  constructor
  · simp only [List.length_take]
    omega
  · simp only [List.length_take]
    have h1 : min 300 T.length ≤ 300 := min_le_left _ _
    have h2 : (300 : Nat) ≤ max 300 url.length := le_max_left _ _
    omega

theorem ogFallback_caps (url : Str) :
    (ogFallback url).description.length ≤ 1000
    ∧ (ogFallback url).title.length ≤ max 300 url.length := by
  constructor
  · simp [ogFallback]
  · simp [ogFallback]

theorem fetchOpenGraphData_shape (url : Str) (o : FetchOutcome) :
    fetchOpenGraphData url o = ogFallback url
    ∨ ∃ (T D : Str) (i : Option Str),
        fetchOpenGraphData url o = ⟨T.take 300, D.take 1000, i⟩ := by
  cases o with
  | fetchError => exact Or.inl rfl
  | response r =>
    simp only [fetchOpenGraphData]
    repeat' split
    all_goals first
      | exact Or.inl rfl
      | exact Or.inr ⟨_, _, _, rfl⟩

/-- C5 (amended): the description is capped at 1000 characters on every
path, and the title is capped at 300 characters on every success path; on
the failure paths the title is the URL itself, so in general it is only
bounded by `max 300 url.length`. -/
theorem fetchOpenGraphData_caps (url : Str) (o : FetchOutcome) :
    (fetchOpenGraphData url o).description.length ≤ 1000
    ∧ (fetchOpenGraphData url o).title.length ≤ max 300 url.length := by
  rcases fetchOpenGraphData_shape url o with h | ⟨T, D, i, h⟩
  · rw [h]
    exact ogFallback_caps url
  · rw [h]
    exact ogData_caps_take T D i url

set_option maxRecDepth 8000 in
/-- C5 counterexample: for a 301-character URL and a failed fetch, the
returned title is the URL itself, 301 characters long — above the stated
300-character cap. -/
theorem fetchOpenGraphData_title_over_cap :
    300 < (fetchOpenGraphData (List.replicate 301 'u') .fetchError).title.length := by
  decide

theorem constrainImage_ok_of_mod5 (encode : Nat → List Nat) (maxBytes : Nat)
    (h5 : (encode 5).length ≤ maxBytes) :
    ∀ q, q % 5 = 0 → 5 ≤ q →
      ∃ b, constrainImage encode maxBytes q = .ok b ∧ b.length ≤ maxBytes := by
  intro q
  induction q using Nat.strong_induction_on with
  | _ q ih =>
    intro hmod hq
    obtain ⟨r, rfl⟩ : ∃ r, q = r + 5 := ⟨q - 5, by omega⟩
    by_cases hover : maxBytes < (encode (r + 5)).length
    · rcases Nat.eq_zero_or_pos r with hr | hr
      · subst hr
        rw [Nat.zero_add] at hover
        exact absurd h5 (by omega)
      · have hr5 : 5 ≤ r := by omega
        have := ih r (by omega) (by omega) hr5
        obtain ⟨b, hb, hble⟩ := this
        exact ⟨b, by simp [constrainImage, hover, hb], hble⟩
    · exact ⟨encode (r + 5), by simp [constrainImage, hover], by omega⟩

/-- C3 (amended): for every encoder and positive byte budget, the
recursion terminates (quality strictly decreases by 5 per step, so at most
18 steps from the default quality 90); whenever the encoding at the lowest
reachable valid quality 5 fits the budget, it returns a buffer of at most
`maxBytes` bytes — but when even quality 5 is over budget the recursion
reaches quality 0 and raises the invalid-quality error instead of
returning. -/
theorem constrainImage_under_budget (encode : Nat → List Nat) (maxBytes : Nat)
    (h5 : (encode 5).length ≤ maxBytes) :
    ∃ b, constrainImage encode maxBytes 90 = .ok b ∧ b.length ≤ maxBytes :=
  constrainImage_ok_of_mod5 encode maxBytes h5 90 (by omega) (by omega)

/-- C3 witness: `constrainImage_under_budget` at a one-byte encoder with a
one-byte budget. -/
theorem constrainImage_under_budget_witness :
    ∃ b, constrainImage (fun _ => [7]) 1 90 = .ok b ∧ b.length ≤ 1 :=
  constrainImage_under_budget (fun _ => [7]) 1 (by decide)

/-- C3 counterexample: with a two-byte encoder output at every quality and
`maxBytes = 1` (positive), the recursion runs 90, 85, …, 5 all over budget
and raises the invalid-quality error rather than returning a buffer. -/
theorem constrainImage_error_at_tiny_budget :
    constrainImage (fun _ => [0, 0]) 1 90 = .error qualityErr := by
  rfl

/-- C10: a buffer strictly under 1 MiB is returned identically with its
original MIME type, and any buffer of 1 MiB or more that comes back
successfully comes back as `image/jpeg` — in particular a buffer of
exactly 1 MiB is re-encoded. -/
theorem getPostImage_threshold (encode : Nat → List Nat) (buffer : List Nat) (mimeType : Str) :
    (buffer.length < 1048576 → getPostImage encode buffer mimeType = .ok (buffer, mimeType))
    ∧ (1048576 ≤ buffer.length →
        ∀ b m, getPostImage encode buffer mimeType = .ok (b, m) → m = "image/jpeg".toList) := by
  constructor
  · intro h
    simp [getPostImage, h]
  · intro h b m hres
    simp only [getPostImage, if_neg (by omega : ¬ buffer.length < 1048576)] at hres
    cases hcon : constrainImage encode 1048576 90 with
    | error e => rw [hcon] at hres; exact Except.noConfusion hres
    | ok compressed =>
      rw [hcon] at hres
      exact (congrArg Prod.snd (Except.ok.inj hres)).symm

/-- C10 witness: `getPostImage_threshold` exercised on a small buffer
(returned identically) and on an exactly-1-MiB buffer (re-encoded as
JPEG). -/
theorem getPostImage_threshold_witness :
    getPostImage (fun _ => []) [3] "image/png".toList = .ok ([3], "image/png".toList)
    ∧ "image/jpeg".toList = "image/jpeg".toList := by
  have hbig : getPostImage (fun _ => []) (List.replicate 1048576 0) "image/png".toList
      = .ok ([], "image/jpeg".toList) := by
    have hc : constrainImage (fun _ => ([] : List Nat)) 1048576 90 = .ok [] := rfl
    simp only [getPostImage, List.length_replicate, lt_irrefl, if_false, hc]
  exact ⟨(getPostImage_threshold (fun _ => []) [3] "image/png".toList).1 (by decide),
    (getPostImage_threshold (fun _ => []) (List.replicate 1048576 0) "image/png".toList).2
      (by rw [List.length_replicate]) [] "image/jpeg".toList hbig⟩

theorem wrapLoop_count (maxChars maxLines : Nat) :
    ∀ (ws lines : List Str) (cur : Str), lines.length ≤ maxLines →
      (wrapLoop maxChars maxLines ws lines cur).1.length ≤ maxLines := by
  intro ws
  induction ws with
  | nil => intro lines cur h; exact h
  | cons w ws ih =>
    intro lines cur h
    simp only [wrapLoop]
    repeat' split
    all_goals first
      | exact h
      | exact ih _ _ h
      | (refine ih _ _ ?_
         simp only [List.length_append, List.length_cons, List.length_nil]
         omega)

theorem wrapLoop_width (maxChars maxLines : Nat) (h3 : 3 ≤ maxChars) :
    ∀ (ws lines : List Str) (cur : Str),
      (∀ l ∈ lines, l.length ≤ maxChars) → cur.length ≤ maxChars →
      (∀ w ∈ ws, w.length ≤ maxChars) →
      (∀ l ∈ (wrapLoop maxChars maxLines ws lines cur).1, l.length ≤ maxChars)
      ∧ (wrapLoop maxChars maxLines ws lines cur).2.length ≤ maxChars := by
  intro ws
  induction ws with
  | nil => intro lines cur hl hc _; exact ⟨hl, hc⟩
  | cons w ws ih =>
    intro lines cur hl hc hw
    have hwhead : w.length ≤ maxChars := hw w (by simp)
    have hwtail : ∀ x ∈ ws, x.length ≤ maxChars := fun x hx => hw x (by simp [hx])
    simp only [wrapLoop]
    repeat' split
    all_goals first
      | exact ⟨hl, hc⟩
      | exact ih _ _ hl (by assumption) hwtail
      | (refine ih _ _ ?_ ?_ hwtail
         · intro l hml
           rcases List.mem_append.mp hml with hA | hB
           · exact hl l hA
           · rw [List.mem_singleton.mp hB]
             first
               | exact hc
               | (have h1 : (w.take (maxChars - 3)).length ≤ maxChars - 3 := by
                    simp [List.length_take]
                  have h2 : ("...".toList : Str).length = 3 := rfl
                  simp only [List.length_append]
                  omega)
         · first
             | exact hwhead
             | simp)

theorem wrapFixup_count (maxChars maxLines : Nat) (words lines : List Str)
    (hpos : 0 < maxLines) (h : lines.length ≤ maxLines) :
    (wrapFixup maxChars maxLines words lines).length ≤ maxLines := by
  simp only [wrapFixup]
  split
  · rename_i hcond
    rw [Bool.and_eq_true, decide_eq_true_eq, decide_eq_true_eq] at hcond
    obtain ⟨hlen, _⟩ := hcond
    split
    · simp only [List.length_append, List.length_dropLast, List.length_cons, List.length_nil]
      omega
    · split
      · simp only [List.length_append, List.length_dropLast, List.length_cons, List.length_nil]
        omega
      · exact h
  · exact h

theorem wrapFixup_width (maxChars maxLines : Nat) (h3 : 3 ≤ maxChars)
    (words lines : List Str) (hl : ∀ l ∈ lines, l.length ≤ maxChars) :
    ∀ l ∈ wrapFixup maxChars maxLines words lines, l.length ≤ maxChars := by
  simp only [wrapFixup]
  split
  · split
    · rename_i hlong
      intro l hml
      rcases List.mem_append.mp hml with hA | hB
      · exact hl l ((List.dropLast_sublist lines).subset hA)
      · rw [List.mem_singleton.mp hB]
        have h1 : ((lines.getLastD []).take (maxChars - 3)).length ≤ maxChars - 3 := by
          simp [List.length_take]
        have h2 : ("...".toList : Str).length = 3 := rfl
        simp only [List.length_append]
        omega
    · split
      · rename_i hshort _
        intro l hml
        rcases List.mem_append.mp hml with hA | hB
        · exact hl l ((List.dropLast_sublist lines).subset hA)
        · rw [List.mem_singleton.mp hB]
          have h2 : ("...".toList : Str).length = 3 := rfl
          have hlast : (lines.getLastD []).length ≤ maxChars - 3 := by omega
          simp only [List.length_append]
          omega
      · exact hl
  · exact hl

/-- C8 (amended): for every title, the thumbnail word-wrapper
(`wrapText` with `maxCharsPerLine = 35`, `maxLines = 4`) returns at most 4
lines, and when every whitespace-separated word of the title is at most 35
characters, every line is at most 35 characters. A word longer than the
limit is truncated with a 3-character ellipsis only when it starts a fresh
line; one arriving while a line is in progress is emitted as its own
over-long line, so the per-line bound does not hold unconditionally. -/
theorem wrapText_bounds (text : Str) :
    (wrapText text 35 4).length ≤ 4
    ∧ ((∀ w ∈ jsSplitWs text, w.length ≤ 35) →
        ∀ l ∈ wrapText text 35 4, l.length ≤ 35) := by
  constructor
  · simp only [wrapText]
    refine wrapFixup_count 35 4 _ _ (by omega) ?_
    have h0 := wrapLoop_count 35 4 (jsSplitWs text) [] [] (by simp)
    split
    · rename_i hc
      rw [Bool.and_eq_true, decide_eq_true_eq] at hc
      simp only [List.length_append, List.length_cons, List.length_nil]
      omega
    · exact h0
  · intro hws
    simp only [wrapText]
    have hw := wrapLoop_width 35 4 (by omega) (jsSplitWs text) [] []
      (by simp) (by simp) hws
    refine wrapFixup_width 35 4 (by omega) _ _ ?_
    split
    · intro l hml
      rcases List.mem_append.mp hml with hA | hB
      · exact hw.1 l hA
      · rw [List.mem_singleton.mp hB]
        exact hw.2
    · exact hw.1

/-- C8 witness: `wrapText_bounds` at the scenario title from the
specification; all its words are short, so every line obeys both caps. -/
theorem wrapText_bounds_witness :
    (wrapText "A very long title that exceeds thirty five characters easily".toList 35 4).length ≤ 4
    ∧ (∀ l ∈ wrapText "A very long title that exceeds thirty five characters easily".toList 35 4,
        l.length ≤ 35) :=
  ⟨(wrapText_bounds "A very long title that exceeds thirty five characters easily".toList).1,
    (wrapText_bounds "A very long title that exceeds thirty five characters easily".toList).2
      (by decide)⟩

/-- C8 counterexample: an over-long word arriving while a line is in
progress is emitted as an untruncated 40-character line, above the stated
35-character limit. -/
theorem wrapText_line_over_limit :
    ∃ l ∈ wrapText ('a' :: ' ' :: (List.replicate 40 'x' ++ [' ', 'b'])) 35 4,
      35 < l.length := by
  decide

/-- C7: for a like of a URL that is not same-origin with the profile, with
`syndicateExternalLikes` disabled (and no higher-priority `repost-of`
marker), `Bluesky.post` performs no transport action and returns the bare
no-op value (JS `undefined`, modelled as `none`), not an error. -/
theorem blueskyPost_external_like_noop {Img Card : Type} (o : Oracles Img Card)
    (cfg : BskyConfig) (p : PostProperties) (u : Str)
    (hrepost : otruthy p.repostOf = none)
    (hlike : otruthy p.likeOf = some u)
    (hext : o.sameOrigin u cfg.profileUrl = false)
    (hdis : cfg.syndicateExternalLikes = false) :
    blueskyPost o cfg p = none := by
  simp only [blueskyPost, hrepost, hlike, hext, hdis]
  simp

/-- C7 witness: `blueskyPost_external_like_noop` at the specification's
scenario `{"like-of": "https://other.example/post"}` with
`syndicateExternalLikes = false`. -/
theorem blueskyPost_external_like_noop_witness :
    blueskyPost unitOracles likeDisabledConfig externalLikeProps = none :=
  blueskyPost_external_like_noop unitOracles likeDisabledConfig externalLikeProps
    "https://other.example/post".toList (by decide) (by decide) rfl rfl

/-- C9: for a regular post (none of the `repost-of`, `like-of`,
`bookmark-of` markers present) with at least one photo, the outbound post
carries exactly one embed: the image-gallery variant holding the first at
most 4 uploaded photos; no external card is attached. -/
theorem blueskyPost_photos_gallery {Img Card : Type} (o : Oracles Img Card)
    (cfg : BskyConfig) (p : PostProperties) (photos : List Photo)
    (hrepost : otruthy p.repostOf = none) (hlike : otruthy p.likeOf = none)
    (hbook : otruthy p.bookmarkOf = none)
    (hphoto : p.photo = some photos) (hne : photos ≠ []) :
    ∃ imgs : List Img,
      blueskyPost o cfg p
        = some (.post { text := o.buildText p (getExternalUrl o.harvest p none)
                        embed := some (.images imgs) })
      ∧ imgs = (photos.take 4).map o.upload
      ∧ imgs.length ≤ 4 := by
  refine ⟨(photos.take 4).map o.upload, ?_, rfl, ?_⟩
  · have hlen : 0 < ((photos.take 4).map o.upload).length := by
      simp only [List.length_map, List.length_take]
      cases photos with
      | nil => exact absurd rfl hne
      | cons a as => simp
    have hne0 : ¬ ((photos.take 4).map o.upload).length = 0 := by omega
    simp only [blueskyPost, hrepost, hlike, hbook, hphoto, hne0, if_false, postPost,
      if_pos hlen]
  · simp only [List.length_map, List.length_take]
    exact min_le_left _ _

/-- C9 witness: `blueskyPost_photos_gallery` at a one-photo regular post. -/
theorem blueskyPost_photos_gallery_witness :
    ∃ imgs : List Unit,
      blueskyPost unitOracles defaultConfig photoProps
        = some (.post { text := unitOracles.buildText photoProps
                          (getExternalUrl unitOracles.harvest photoProps none)
                        embed := some (.images imgs) })
      ∧ imgs = (([⟨"https://me.example/img.jpg".toList, none⟩] : List Photo).take 4).map
          unitOracles.upload
      ∧ imgs.length ≤ 4 :=
  blueskyPost_photos_gallery unitOracles defaultConfig photoProps
    [⟨"https://me.example/img.jpg".toList, none⟩]
    (by decide) (by decide) (by decide) rfl (by simp)
